import Mathlib

/-
Shallow embedding of the order-management core of `horeca_technologies.py`:
the Order / OrderItem data model, the guarded status-transition engine, the
OrderItem pricing hook, and the draft-order spreadsheet exporter.

Decimal values (Python `decimal.Decimal`) are modelled as exact rationals;
`Decimal.quantize` with the default ROUND_HALF_EVEN context is modelled by
`quantize` below.  Python `float` is binary64; the conversion
`float(Decimal(...))` is modelled by `toDouble`, round-to-nearest-even onto
53-bit significands (the normal range; overflow and subnormals are outside
every value considered here).  Django querysets over related rows are
modelled as lists carried inside the `Order` structure; `save` calls are
modelled by recording the field sets they would persist.
-/

namespace Horeca

/-- Order.STATUSES from the source. -/
inductive OrderStatus
  | DRAFT
  | RESERVED
  | CONFIRMED
  | PAID
  | IN_PROGRESS
  | CANCELED
  | DELETED
  deriving DecidableEq, Repr

/-- OrderItem.STATUSES from the source. -/
inductive ItemStatus
  | NEW
  | ACCEPT
  | REJECT
  | RESERVE
  deriving DecidableEq, Repr

/-- Delivery.STATUSES: the source consults FACT, SHIPPED, PAID, CANCELED and
DELETED; PLAN stands for any other pre-shipment status. -/
inductive DeliveryStatus
  | PLAN
  | SHIPPED
  | FACT
  | PAID
  | CANCELED
  | DELETED
  deriving DecidableEq, Repr

/-- Round half to even, the default rounding of Python `decimal` and the
rounding used by binary64 and by float formatting. -/
def heRound (q : ℚ) : ℤ :=
  let f : ℤ := ⌊q⌋
  let r : ℚ := q - f
  if r < 1/2 then f
  else if 1/2 < r then f + 1
  else if f % 2 = 0 then f else f + 1

/-- `Decimal.quantize(Decimal("0.0...1"))` with `scale` fractional digits
under the default ROUND_HALF_EVEN mode. -/
def quantize (scale : ℕ) (q : ℚ) : ℚ :=
  (heRound (q * (10 : ℚ) ^ scale) : ℚ) / (10 : ℚ) ^ scale

/-- Rounding of a positive rational to the nearest binary64 value
(round-to-nearest, ties to even), in the normal range. -/
def toDoublePos (q : ℚ) : ℚ :=
  let e : ℤ := Int.log 2 q
  let u : ℚ := (2 : ℚ) ^ (e - 52)
  (heRound (q / u) : ℚ) * u

/-- `float(q)` for an exact decimal `q`, as the exact rational value of the
nearest binary64 number. -/
def toDouble (q : ℚ) : ℚ :=
  if q = 0 then 0 else if 0 < q then toDoublePos q else -toDoublePos (-q)

/-- A line item of an order.  `offer_price` / `offer_vat` are the price and
VAT rate carried by the referenced Offer row.  `is_price_changed` /
`is_vat_changed` are the dirty flags of the field-setter mixin and
`add_update_fields` is the extra-persisted-fields set of UpdateFieldsMixin. -/
structure OrderItem where
  id : Option ℕ
  amount : ℚ
  price : ℚ
  vat : ℚ
  sum : ℚ
  vat_sum : ℚ
  status : ItemStatus
  is_price_changed : Bool
  is_vat_changed : Bool
  add_update_fields : List String
  offer_price : ℚ
  offer_vat : ℚ
  deriving DecidableEq, Repr

/-- A delivery row; only its status matters to the order engine. -/
structure Delivery where
  status : DeliveryStatus
  deriving DecidableEq, Repr

/-- The Order aggregate: status plus the related rows the transitions read
and mutate.  `transactions` holds opaque ids of BatchTransaction rows. -/
structure Order where
  id : Option ℕ
  status : OrderStatus
  dereservation_at : Option ℕ
  items : List OrderItem
  deliveries : List Delivery
  transactions : List ℕ
  deriving DecidableEq, Repr

/-- `Order.get_new_dereservation_time`: `timezone.now() + timedelta(hours=1)`,
with time modelled in seconds. -/
def get_new_dereservation_time (now : ℕ) : ℕ := now + 3600

/-- `Order.save`: returns the `update_fields` set that reaches
`super().save()`.  When the order is persisted and a non-empty
`update_fields` without `status_updated_at` is given, `status_updated_at`
is united into it (`none` means a full-row save). -/
def order_save (o : Order) (update_fields : Option (List String)) :
    Option (List String) :=
  match o.id, update_fields with
  | some _, some ufs =>
      if ufs ≠ [] ∧ "status_updated_at" ∉ ufs then
        some (ufs ++ ["status_updated_at"])
      else some ufs
  | _, _ => update_fields

/-- `Order._is_cancelable`: no delivery of the order is FACT or SHIPPED. -/
def is_cancelable (o : Order) : Bool :=
  !(o.deliveries.any fun d =>
      d.status = DeliveryStatus.FACT ∨ d.status = DeliveryStatus.SHIPPED)

/-- Modelled from the spec: `set_sum` (not part of the extracted source) sets
`sum = price × amount` at the declared 2-decimal scale of the `sum` column. -/
def set_sum (it : OrderItem) : OrderItem :=
  { it with sum := quantize 2 (it.price * it.amount) }

/-- Modelled from the spec: `set_vat_sum` (not part of the extracted source)
derives `vat_sum` from the new sum and vat, at the declared 4-decimal scale
of the `vat_sum` column. -/
def set_vat_sum (it : OrderItem) : OrderItem :=
  { it with vat_sum := quantize 4 (it.sum * it.vat / 100) }

/-- Modelled from the spec: the field-setter mixin's price setter flags
`is_price_changed` when the assigned value differs from the loaded one. -/
def set_price (it : OrderItem) (p : ℚ) : OrderItem :=
  { it with price := p,
            is_price_changed := it.is_price_changed || decide (p ≠ it.price) }

/-- Modelled from the spec: the field-setter mixin's vat setter flags
`is_vat_changed` when the assigned value differs from the loaded one. -/
def set_vat (it : OrderItem) (v : ℚ) : OrderItem :=
  { it with vat := v,
            is_vat_changed := it.is_vat_changed || decide (v ≠ it.vat) }

/-- Modelled from the spec: `OrderItem.update_price_and_vat` (not part of the
extracted source) re-derives the item's price and vat from its offer. -/
def update_price_and_vat (it : OrderItem) : OrderItem :=
  set_vat (set_price it it.offer_price) it.offer_vat

/-- Everything `OrderItem.save` produces: the item after the save, the field
set persisted for the item (`none` = full row), the order's
`dereservation_at` after the save, and the field set the save asked the
parent order to persist (if it saved the order at all). -/
structure ItemSaveOutcome where
  item : OrderItem
  persisted_fields : Option (List String)
  order_dereservation_at : Option ℕ
  order_saved_fields : Option (List String)
  deriving DecidableEq, Repr

/-- `OrderItem.save`.  While the parent order is RESERVED: a new item is
forced to RESERVE, and an active dereservation timer is refreshed to now+1h
and persisted on the order.  A changed price recomputes `sum` (and, when the
vat changed as well, `vat_sum`), adding the recomputed columns to
`add_update_fields`; the mixin unites `add_update_fields` into the
explicitly requested `update_fields`. -/
def order_item_save (now : ℕ) (order_status : OrderStatus)
    (order_deres : Option ℕ) (it : OrderItem)
    (update_fields : Option (List String)) : ItemSaveOutcome :=
  let it1 : OrderItem :=
    { it with status :=
        if order_status = OrderStatus.RESERVED ∧ it.id = none then
          ItemStatus.RESERVE
        else it.status }
  let refresh : Prop := order_status = OrderStatus.RESERVED ∧ order_deres ≠ none
  let newDeres : Option ℕ :=
    if refresh then some (get_new_dereservation_time now) else order_deres
  let orderSaved : Option (List String) :=
    if refresh then some ["dereservation_at"] else none
  let it2 : OrderItem :=
    if it1.is_price_changed then
      let a := set_sum it1
      let a := { a with add_update_fields := a.add_update_fields ++ ["sum"] }
      if a.is_vat_changed then
        let b := set_vat_sum a
        { b with add_update_fields := b.add_update_fields ++ ["vat_sum"] }
      else a
    else it1
  { item := it2,
    persisted_fields :=
      match update_fields with
      | some ufs => some (ufs ++ it2.add_update_fields)
      | none => none,
    order_dereservation_at := newDeres,
    order_saved_fields := orderSaved }

/-- The transition methods declared on Order. -/
inductive OrderEvent
  | mark_reserved
  | mark_draft
  | make_confirmed
  | mark_paid
  | mark_canceled
  | mark_deleted
  deriving DecidableEq, Repr

/-- The source states of each `@transition` decorator. -/
def sources : OrderEvent → List OrderStatus
  | .mark_reserved => [.DRAFT]
  | .mark_draft => [.RESERVED]
  | .make_confirmed => [.DRAFT, .RESERVED]
  | .mark_paid => [.CONFIRMED]
  | .mark_canceled => [.PAID, .CONFIRMED, .IN_PROGRESS]
  | .mark_deleted => [.DRAFT, .RESERVED]

/-- The target state of each `@transition` decorator. -/
def target : OrderEvent → OrderStatus
  | .mark_reserved => .RESERVED
  | .mark_draft => .DRAFT
  | .make_confirmed => .CONFIRMED
  | .mark_paid => .PAID
  | .mark_canceled => .CANCELED
  | .mark_deleted => .DELETED

/-- The in-body guard of each transition; only `mark_canceled` has one. -/
def precondition (e : OrderEvent) (o : Order) : Bool :=
  match e with
  | .mark_canceled => is_cancelable o
  | _ => true

/-- Body of `mark_reserved`: delete zero-amount items, set the dereservation
timer one hour ahead, set the remaining items to RESERVE. -/
def mark_reserved_body (now : ℕ) (o : Order) : Order :=
  let kept := o.items.filter fun it => it.amount ≠ 0
  { o with
      items := kept.map fun it => { it with status := ItemStatus.RESERVE },
      dereservation_at := some (get_new_dereservation_time now) }

/-- Body of `mark_draft`: clear the dereservation timer, set items to NEW. -/
def mark_draft_body (o : Order) : Order :=
  { o with
      dereservation_at := none,
      items := o.items.map fun it => { it with status := ItemStatus.NEW } }

/-- Body of `make_confirmed`: delete zero-amount items, then for each
remaining item re-derive price and vat from the offer and save the item with
`update_fields=["price", "vat"]`; each item save runs with the order still in
its source status, so it may refresh the dereservation timer. -/
def make_confirmed_body (now : ℕ) (o : Order) : Order :=
  let kept := o.items.filter fun it => it.amount ≠ 0
  let step := fun (acc : List OrderItem × Option ℕ) (it : OrderItem) =>
    let out := order_item_save now o.status acc.2 (update_price_and_vat it)
      (some ["price", "vat"])
    (acc.1 ++ [out.item], out.order_dereservation_at)
  let res := kept.foldl step ([], o.dereservation_at)
  { o with items := res.1, dereservation_at := res.2 }

/-- Body of `mark_paid`: every non-CANCELED delivery becomes PAID. -/
def mark_paid_body (o : Order) : Order :=
  { o with deliveries := o.deliveries.map fun d =>
      if d.status ≠ DeliveryStatus.CANCELED then
        { d with status := DeliveryStatus.PAID }
      else d }

/-- Modelled from the spec: `Delivery.mark_canceled` (Delivery is not part of
the extracted source) cancels the delivery. -/
def delivery_mark_canceled (d : Delivery) : Delivery :=
  { d with status := DeliveryStatus.CANCELED }

/-- Body of `mark_canceled` after its guard: delete all financial
transactions tied to the order and cancel every delivery. -/
def mark_canceled_body (o : Order) : Order :=
  { o with
      transactions := [],
      deliveries := o.deliveries.map delivery_mark_canceled }

/-- Body of `mark_deleted`: every delivery becomes DELETED. -/
def mark_deleted_body (o : Order) : Order :=
  { o with deliveries := o.deliveries.map fun d =>
      { d with status := DeliveryStatus.DELETED } }

/-- A TransitionNotAllowed-class error. -/
structure TransitionErr where
  msg : String
  deriving DecidableEq, Repr

/-- django-fsm semantics of invoking a transition method: if the order's
status is not among the decorator's sources, or the body raises
TransitionNotAllowed (the `mark_canceled` guard, which fires before any
mutation), the call fails and the order is unchanged; otherwise the body
runs and the status is set to the decorator's target. -/
def applyTransition (now : ℕ) (e : OrderEvent) (o : Order) :
    Order × Option TransitionErr :=
  if o.status ∈ sources e then
    match e with
    | .mark_reserved =>
        ({ mark_reserved_body now o with status := target e }, none)
    | .mark_draft => ({ mark_draft_body o with status := target e }, none)
    | .make_confirmed =>
        ({ make_confirmed_body now o with status := target e }, none)
    | .mark_paid => ({ mark_paid_body o with status := target e }, none)
    | .mark_canceled =>
        if is_cancelable o then
          ({ mark_canceled_body o with status := target e }, none)
        else (o, some ⟨"Order is not cancelable."⟩)
    | .mark_deleted =>
        ({ mark_deleted_body o with status := target e }, none)
  else (o, some ⟨"TransitionNotAllowed"⟩)

end Horeca

namespace Horeca

/-- A persisted order sitting in PAID status, with one PLAN delivery and one
financial transaction attached. -/
def order_paid_example : Order :=
  { id := some 1, status := .PAID, dereservation_at := none,
    items := [], deliveries := [{ status := .PLAN }], transactions := [3] }

/-- A persisted order sitting in DRAFT status with one non-zero item and one
zero-amount item. -/
def order_draft_example : Order :=
  { id := some 2, status := .DRAFT, dereservation_at := none,
    items :=
      [{ id := some 10, amount := 2, price := 10, vat := 20, sum := 20,
         vat_sum := 4, status := .NEW, is_price_changed := false,
         is_vat_changed := false, add_update_fields := [],
         offer_price := 10, offer_vat := 20 },
       { id := some 11, amount := 0, price := 5, vat := 20, sum := 0,
         vat_sum := 0, status := .NEW, is_price_changed := false,
         is_vat_changed := false, add_update_fields := [],
         offer_price := 5, offer_vat := 20 }],
    deliveries := [], transactions := [] }

/-- Claim C1: any attempted transition whose source status is not listed in
the decorator's sources, or whose precondition fails, fails with a
TransitionNotAllowed-class error and performs no mutation at all: the order
(its status, items, deliveries and transactions) is returned unchanged. -/
theorem transition_outside_table_fails (now : ℕ) (e : OrderEvent) (o : Order)
    (h : o.status ∉ sources e ∨ precondition e o = false) :
    (applyTransition now e o).1 = o ∧
      ∃ m, (applyTransition now e o).2 = some m := by
  rcases h with h | h
  · simp [applyTransition, h]
  · cases e <;> simp [precondition] at h
    by_cases hm : o.status ∈ sources OrderEvent.mark_canceled
    · simp [applyTransition, hm, h]
    · simp [applyTransition, hm]

/-- Witness for C1: a PAID order cannot be moved back to DRAFT. -/
theorem transition_outside_table_fails_witness :
    (applyTransition 0 .mark_draft order_paid_example).1 = order_paid_example ∧
      ∃ m, (applyTransition 0 .mark_draft order_paid_example).2 = some m :=
  transition_outside_table_fails 0 .mark_draft order_paid_example
    (Or.inl (by decide))

/-- Claim C2: from DRAFT, `mark_reserved` succeeds, deletes every item whose
amount is 0, sets `dereservation_at` to now plus one hour, sets every
remaining item's status to RESERVE, and moves the order to RESERVED. -/
theorem mark_reserved_spec (now : ℕ) (o : Order)
    (h : o.status = OrderStatus.DRAFT) :
    (applyTransition now .mark_reserved o).2 = none ∧
    (applyTransition now .mark_reserved o).1.status = OrderStatus.RESERVED ∧
    (applyTransition now .mark_reserved o).1.dereservation_at
      = some (now + 3600) ∧
    (applyTransition now .mark_reserved o).1.items
      = (o.items.filter fun it => it.amount ≠ 0).map
          (fun it => { it with status := ItemStatus.RESERVE }) ∧
    ∀ it ∈ (applyTransition now .mark_reserved o).1.items,
      it.status = ItemStatus.RESERVE ∧ it.amount ≠ 0 := by
  have hs : o.status ∈ sources OrderEvent.mark_reserved := by
    simp [sources, h]
  refine ⟨by simp [applyTransition, hs], by simp [applyTransition, hs, target],
    by simp [applyTransition, hs, mark_reserved_body,
      get_new_dereservation_time],
    by simp [applyTransition, hs, mark_reserved_body], ?_⟩
  intro it hit
  simp [applyTransition, hs, mark_reserved_body] at hit
  rcases hit with ⟨x, ⟨hx0, hx⟩, rfl⟩
  exact ⟨rfl, hx⟩

/-- Witness for C2 on a concrete DRAFT order. -/
theorem mark_reserved_spec_witness :
    (applyTransition 100 .mark_reserved order_draft_example).2 = none ∧
    (applyTransition 100 .mark_reserved order_draft_example).1.status
      = OrderStatus.RESERVED ∧
    (applyTransition 100 .mark_reserved order_draft_example).1.dereservation_at
      = some (100 + 3600) ∧
    (applyTransition 100 .mark_reserved order_draft_example).1.items
      = (order_draft_example.items.filter fun it => it.amount ≠ 0).map
          (fun it => { it with status := ItemStatus.RESERVE }) ∧
    ∀ it ∈ (applyTransition 100 .mark_reserved order_draft_example).1.items,
      it.status = ItemStatus.RESERVE ∧ it.amount ≠ 0 :=
  mark_reserved_spec 100 order_draft_example rfl

/-- Claim C3: from PAID, CONFIRMED or IN_PROGRESS, `mark_canceled` fails
with a TransitionNotAllowed error exactly when some delivery of the order is
FACT or SHIPPED (leaving the order untouched); otherwise it succeeds,
deletes all financial transactions tied to the order and cancels every
delivery. -/
theorem mark_canceled_spec (now : ℕ) (o : Order)
    (h : o.status = OrderStatus.PAID ∨ o.status = OrderStatus.CONFIRMED ∨
      o.status = OrderStatus.IN_PROGRESS) :
    ((∃ d ∈ o.deliveries, d.status = DeliveryStatus.FACT ∨
        d.status = DeliveryStatus.SHIPPED) →
      applyTransition now .mark_canceled o
        = (o, some ⟨"Order is not cancelable."⟩)) ∧
    ((¬ ∃ d ∈ o.deliveries, d.status = DeliveryStatus.FACT ∨
        d.status = DeliveryStatus.SHIPPED) →
      (applyTransition now .mark_canceled o).2 = none ∧
      (applyTransition now .mark_canceled o).1.transactions = [] ∧
      (applyTransition now .mark_canceled o).1.deliveries
        = o.deliveries.map delivery_mark_canceled ∧
      ∀ d ∈ (applyTransition now .mark_canceled o).1.deliveries,
        d.status = DeliveryStatus.CANCELED) := by
  have hs : o.status ∈ sources OrderEvent.mark_canceled := by
    rcases h with h | h | h <;> simp [sources, h]
  constructor
  · intro hd
    have hc : is_cancelable o = false := by
      rcases hd with ⟨d, hdm, hds⟩
      simp [is_cancelable, List.any_eq_true]
      exact ⟨d, hdm, hds⟩
    simp [applyTransition, hs, hc]
  · intro hd
    have hc : is_cancelable o = true := by
      simp [is_cancelable, List.any_eq_true]
      intro d hdm
      have := fun hcon => hd ⟨d, hdm, hcon⟩
      tauto
    refine ⟨by simp [applyTransition, hs, hc],
      by simp [applyTransition, hs, hc, mark_canceled_body],
      by simp [applyTransition, hs, hc, mark_canceled_body], ?_⟩
    intro d hdm
    simp [applyTransition, hs, hc, mark_canceled_body] at hdm
    rcases hdm with ⟨x, _, rfl⟩
    rfl

/-- Witness for C3 on a concrete PAID order whose delivery is still PLAN. -/
theorem mark_canceled_spec_witness :
    ((∃ d ∈ order_paid_example.deliveries,
        d.status = DeliveryStatus.FACT ∨ d.status = DeliveryStatus.SHIPPED) →
      applyTransition 0 .mark_canceled order_paid_example
        = (order_paid_example, some ⟨"Order is not cancelable."⟩)) ∧
    ((¬ ∃ d ∈ order_paid_example.deliveries,
        d.status = DeliveryStatus.FACT ∨ d.status = DeliveryStatus.SHIPPED) →
      (applyTransition 0 .mark_canceled order_paid_example).2 = none ∧
      (applyTransition 0 .mark_canceled order_paid_example).1.transactions
        = [] ∧
      (applyTransition 0 .mark_canceled order_paid_example).1.deliveries
        = order_paid_example.deliveries.map delivery_mark_canceled ∧
      ∀ d ∈ (applyTransition 0 .mark_canceled order_paid_example).1.deliveries,
        d.status = DeliveryStatus.CANCELED) :=
  mark_canceled_spec 0 order_paid_example (Or.inl rfl)

/-- Claim C9: moving a DRAFT order to RESERVED and back to DRAFT succeeds,
restores every surviving item's status to NEW, clears `dereservation_at`
and returns the order to DRAFT. -/
theorem reserve_draft_roundtrip (n1 n2 : ℕ) (o : Order)
    (h : o.status = OrderStatus.DRAFT) :
    (applyTransition n2 .mark_draft
        (applyTransition n1 .mark_reserved o).1).2 = none ∧
    (applyTransition n2 .mark_draft
        (applyTransition n1 .mark_reserved o).1).1.status
      = OrderStatus.DRAFT ∧
    (applyTransition n2 .mark_draft
        (applyTransition n1 .mark_reserved o).1).1.dereservation_at = none ∧
    (applyTransition n2 .mark_draft
        (applyTransition n1 .mark_reserved o).1).1.items
      = (o.items.filter fun it => it.amount ≠ 0).map
          (fun it => { it with status := ItemStatus.NEW }) ∧
    ∀ it ∈ (applyTransition n2 .mark_draft
        (applyTransition n1 .mark_reserved o).1).1.items,
      it.status = ItemStatus.NEW := by
  have hs1 : o.status ∈ sources OrderEvent.mark_reserved := by
    simp [sources, h]
  have h1 : (applyTransition n1 .mark_reserved o).1
      = { mark_reserved_body n1 o with status := OrderStatus.RESERVED } := by
    simp [applyTransition, hs1, target]
  rw [h1]
  have hs2 : OrderStatus.RESERVED ∈ sources OrderEvent.mark_draft := by
    simp [sources]
  refine ⟨by simp [applyTransition, hs2, sources],
    by simp [applyTransition, hs2, sources, target],
    by simp [applyTransition, hs2, sources, mark_draft_body], ?_, ?_⟩
  · simp [applyTransition, hs2, sources, mark_draft_body, mark_reserved_body,
      List.map_map, Function.comp]
  · intro it hit
    simp [applyTransition, hs2, sources, mark_draft_body] at hit
    rcases hit with ⟨x, _, rfl⟩
    rfl

/-- Witness for C9 on a concrete DRAFT order. -/
theorem reserve_draft_roundtrip_witness :
    (applyTransition 7 .mark_draft
        (applyTransition 5 .mark_reserved order_draft_example).1).2 = none ∧
    (applyTransition 7 .mark_draft
        (applyTransition 5 .mark_reserved order_draft_example).1).1.status
      = OrderStatus.DRAFT ∧
    (applyTransition 7 .mark_draft
        (applyTransition 5 .mark_reserved
          order_draft_example).1).1.dereservation_at = none ∧
    (applyTransition 7 .mark_draft
        (applyTransition 5 .mark_reserved order_draft_example).1).1.items
      = (order_draft_example.items.filter fun it => it.amount ≠ 0).map
          (fun it => { it with status := ItemStatus.NEW }) ∧
    ∀ it ∈ (applyTransition 7 .mark_draft
        (applyTransition 5 .mark_reserved order_draft_example).1).1.items,
      it.status = ItemStatus.NEW :=
  reserve_draft_roundtrip 5 7 order_draft_example rfl

end Horeca

namespace Horeca

/-- Counterexample to C6 as stated: `Order.save` appends `status_updated_at`
to every non-empty explicit `update_fields` of a persisted order, not only
when `status` is among the fields being saved.  Saving only
`dereservation_at` (as `OrderItem.save` does) also persists
`status_updated_at`. -/
theorem order_save_counterexample :
    ¬ (∀ (o : Order) (ufs : List String), o.id.isSome → ufs ≠ [] →
        ("status_updated_at" ∈ (order_save o (some ufs)).getD [] ↔
          "status" ∈ ufs)) := by
  intro hcl
  exact absurd
    (hcl order_paid_example ["dereservation_at"] (by decide) (by decide))
    (by decide)

/-- Claim C6 (amended): for every save of a persisted Order with a non-empty
explicit `update_fields` set that does not already contain
`status_updated_at`, the field `status_updated_at` is appended to the
persisted field set, regardless of whether `status` is among the fields
being saved; the other persisted fields are exactly those listed. -/
theorem order_save_appends_status_timestamp (o : Order) (ufs : List String)
    (h1 : o.id.isSome) (h2 : ufs ≠ []) (h3 : "status_updated_at" ∉ ufs) :
    order_save o (some ufs) = some (ufs ++ ["status_updated_at"]) := by
  obtain ⟨i, hi⟩ := Option.isSome_iff_exists.mp h1
  simp [order_save, hi, h2, h3]

/-- Witness for amended C6: the `OrderItem.save` call site that persists
only `dereservation_at`. -/
theorem order_save_appends_status_timestamp_witness :
    order_save order_paid_example (some ["dereservation_at"])
      = some (["dereservation_at"] ++ ["status_updated_at"]) :=
  order_save_appends_status_timestamp order_paid_example ["dereservation_at"]
    (by decide) (by decide) (by decide)

/-- Claim C5: saving an OrderItem whose price changed since load while its
vat did not recomputes `sum = price × amount` at the declared 2-decimal
scale and marks `sum` for persistence, while `vat_sum` is left untouched. -/
theorem order_item_save_price_changed (now : ℕ) (st : OrderStatus)
    (deres : Option ℕ) (it : OrderItem) (ufs : List String)
    (hp : it.is_price_changed = true) (hv : it.is_vat_changed = false) :
    (order_item_save now st deres it (some ufs)).item.sum
      = quantize 2 (it.price * it.amount) ∧
    (order_item_save now st deres it (some ufs)).item.vat_sum = it.vat_sum ∧
    (order_item_save now st deres it (some ufs)).item.add_update_fields
      = it.add_update_fields ++ ["sum"] ∧
    (order_item_save now st deres it (some ufs)).persisted_fields
      = some (ufs ++ (it.add_update_fields ++ ["sum"])) := by
  simp [order_item_save, set_sum, hp, hv]

/-- An item loaded with a stale `sum` whose price has been edited
(dirty-flagged) while its vat is unchanged. -/
def item_price_changed_example : OrderItem :=
  { id := some 20, amount := 3, price := 7, vat := 20, sum := 0, vat_sum := 4,
    status := .NEW, is_price_changed := true, is_vat_changed := false,
    add_update_fields := [], offer_price := 7, offer_vat := 20 }

/-- Witness for C5 on a concrete dirty-priced item. -/
theorem order_item_save_price_changed_witness :
    (order_item_save 0 .DRAFT none item_price_changed_example
        (some ["price", "vat"])).item.sum
      = quantize 2 (item_price_changed_example.price *
          item_price_changed_example.amount) ∧
    (order_item_save 0 .DRAFT none item_price_changed_example
        (some ["price", "vat"])).item.vat_sum
      = item_price_changed_example.vat_sum ∧
    (order_item_save 0 .DRAFT none item_price_changed_example
        (some ["price", "vat"])).item.add_update_fields
      = item_price_changed_example.add_update_fields ++ ["sum"] ∧
    (order_item_save 0 .DRAFT none item_price_changed_example
        (some ["price", "vat"])).persisted_fields
      = some (["price", "vat"] ++
          (item_price_changed_example.add_update_fields ++ ["sum"])) :=
  order_item_save_price_changed 0 .DRAFT none item_price_changed_example
    ["price", "vat"] rfl rfl

end Horeca

namespace Horeca

/-- What `make_confirmed` does to one surviving item: re-derive price and
vat from the offer, then save the item with `update_fields=["price","vat"]`
(so the pricing hook fires).  The saved item does not depend on the order's
dereservation timer. -/
def confirm_transform (now : ℕ) (st : OrderStatus) (it : OrderItem) :
    OrderItem :=
  (order_item_save now st none (update_price_and_vat it)
      (some ["price", "vat"])).item

lemma order_item_save_item_indep (now : ℕ) (st : OrderStatus)
    (d d' : Option ℕ) (it : OrderItem) (u : Option (List String)) :
    (order_item_save now st d it u).item
      = (order_item_save now st d' it u).item := rfl

lemma confirm_foldl_items (now : ℕ) (st : OrderStatus) (l : List OrderItem)
    (acc : List OrderItem) (d : Option ℕ) :
    (l.foldl (fun (acc : List OrderItem × Option ℕ) (it : OrderItem) =>
        let out := order_item_save now st acc.2 (update_price_and_vat it)
          (some ["price", "vat"])
        (acc.1 ++ [out.item], out.order_dereservation_at)) (acc, d)).1
      = acc ++ l.map (confirm_transform now st) := by
  induction l generalizing acc d with
  | nil => simp
  | cons x xs ih =>
      simp only [List.foldl_cons, List.map_cons]
      rw [ih]
      rw [confirm_transform,
        order_item_save_item_indep now st d none (update_price_and_vat x)
          (some ["price", "vat"])]
      simp

/-- A DRAFT order holding one item whose stored price and vat already agree
with its offer, but whose stored `sum` is stale. -/
def order_confirm_cex : Order :=
  { id := some 3, status := .DRAFT, dereservation_at := none,
    items :=
      [{ id := some 30, amount := 2, price := 10, vat := 20, sum := 5,
         vat_sum := 0, status := .NEW, is_price_changed := false,
         is_vat_changed := false, add_update_fields := [],
         offer_price := 10, offer_vat := 20 }],
    deliveries := [], transactions := [] }

/-- Counterexample to C4 as stated: `make_confirmed` does not recompute the
derived sums of every remaining item.  An item whose price (and vat) did not
actually change keeps its stale `sum` (here 5 instead of 10 × 2 = 20) and
nothing beyond price and vat is marked for persistence. -/
theorem make_confirmed_counterexample :
    ¬ (∀ (now : ℕ) (o : Order),
        o.status = OrderStatus.DRAFT ∨ o.status = OrderStatus.RESERVED →
        ∀ it ∈ (applyTransition now .make_confirmed o).1.items,
          it.sum = quantize 2 (it.price * it.amount) ∧
          "sum" ∈ it.add_update_fields) := by
  intro hcl
  have hmem := hcl 0 order_confirm_cex (Or.inl rfl)
  have hitems : (applyTransition 0 .make_confirmed order_confirm_cex).1.items
      = (order_confirm_cex.items.filter fun it => it.amount ≠ 0).map
          (confirm_transform 0 order_confirm_cex.status) := by
    simp only [applyTransition, sources, make_confirmed_body]
    norm_num
    rw [confirm_foldl_items]
    rw [if_pos (show order_confirm_cex.status = OrderStatus.DRAFT ∨
      order_confirm_cex.status = OrderStatus.RESERVED from Or.inl rfl)]
    simp
  rw [hitems] at hmem
  have hx := hmem (confirm_transform 0 order_confirm_cex.status
    (order_confirm_cex.items.get ⟨0, by simp [order_confirm_cex]⟩)) ?_
  · have h5 : (confirm_transform 0 order_confirm_cex.status
        (order_confirm_cex.items.get ⟨0, by simp [order_confirm_cex]⟩)).sum
        = 5 := by
      simp [confirm_transform, order_item_save, update_price_and_vat,
        set_price, set_vat, order_confirm_cex]
    have h20 : quantize 2 ((confirm_transform 0 order_confirm_cex.status
          (order_confirm_cex.items.get ⟨0, by simp [order_confirm_cex]⟩)).price *
        (confirm_transform 0 order_confirm_cex.status
          (order_confirm_cex.items.get ⟨0, by simp [order_confirm_cex]⟩)).amount)
        = 20 := by
      have hp : (confirm_transform 0 order_confirm_cex.status
          (order_confirm_cex.items.get ⟨0, by simp [order_confirm_cex]⟩)).price
          = 10 := by
        simp [confirm_transform, order_item_save, update_price_and_vat,
          set_price, set_vat, order_confirm_cex]
      have ha : (confirm_transform 0 order_confirm_cex.status
          (order_confirm_cex.items.get ⟨0, by simp [order_confirm_cex]⟩)).amount
          = 2 := by
        simp [confirm_transform, order_item_save, update_price_and_vat,
          set_price, set_vat, order_confirm_cex]
      rw [hp, ha]
      unfold quantize heRound
      norm_num
    rw [h5, h20] at hx
    exact absurd hx.1 (by norm_num)
  · simp [order_confirm_cex]

end Horeca

namespace Horeca

/-- Claim C4 (amended): from DRAFT or RESERVED, `make_confirmed` succeeds,
deletes every item whose amount equals 0, and saves every remaining item
with its price and vat re-derived from the offer; the price/VAT-derived
sums are recomputed and marked for persistence only when the corresponding
source fields actually changed: `sum` when the price changed (to
`new price × amount` at the 2-decimal scale), `vat_sum` only when the vat
also changed (derived from the new sum and vat; when the price changed but
the vat did not, `vat_sum` is kept and only `sum` is marked), and an item
whose price and vat are unchanged keeps its stored `sum` and `vat_sum` and
marks nothing extra for persistence. -/
theorem make_confirmed_spec (now : ℕ) (o : Order)
    (h : o.status = OrderStatus.DRAFT ∨ o.status = OrderStatus.RESERVED) :
    (applyTransition now .make_confirmed o).2 = none ∧
    (applyTransition now .make_confirmed o).1.status
      = OrderStatus.CONFIRMED ∧
    (applyTransition now .make_confirmed o).1.items
      = (o.items.filter fun it => it.amount ≠ 0).map
          (confirm_transform now o.status) ∧
    (∀ it : OrderItem, it.is_price_changed = false →
      it.offer_price = it.price →
      (confirm_transform now o.status it).sum = it.sum ∧
      (confirm_transform now o.status it).vat_sum = it.vat_sum ∧
      (confirm_transform now o.status it).add_update_fields
        = it.add_update_fields) ∧
    (∀ it : OrderItem, it.offer_price ≠ it.price →
      (confirm_transform now o.status it).sum
        = quantize 2 (it.offer_price * it.amount) ∧
      "sum" ∈ (confirm_transform now o.status it).add_update_fields) ∧
    (∀ it : OrderItem, it.offer_price ≠ it.price → it.offer_vat ≠ it.vat →
      (confirm_transform now o.status it).vat_sum
        = quantize 4 (quantize 2 (it.offer_price * it.amount)
            * it.offer_vat / 100) ∧
      "vat_sum" ∈ (confirm_transform now o.status it).add_update_fields) ∧
    (∀ it : OrderItem, it.offer_price ≠ it.price →
      it.is_vat_changed = false → it.offer_vat = it.vat →
      (confirm_transform now o.status it).vat_sum = it.vat_sum ∧
      (confirm_transform now o.status it).add_update_fields
        = it.add_update_fields ++ ["sum"]) := by
  have hs : o.status ∈ sources OrderEvent.make_confirmed := by
    rcases h with h | h <;> simp [sources, h]
  refine ⟨by simp [applyTransition, hs],
    by simp [applyTransition, hs, target], ?_, ?_, ?_, ?_, ?_⟩
  · simp only [applyTransition, hs, if_pos, make_confirmed_body]
    rw [confirm_foldl_items]
    simp
  · intro it hp hpv
    refine ⟨?_, ?_, ?_⟩ <;>
      simp [confirm_transform, order_item_save, update_price_and_vat,
        set_price, set_vat, hp, hpv]
  · intro it hpv
    by_cases hvf : it.is_vat_changed = true ∨ ¬ it.offer_vat = it.vat
    · constructor <;>
        simp [confirm_transform, order_item_save, update_price_and_vat,
          set_price, set_vat, set_sum, set_vat_sum, hpv, hvf]
    · constructor <;>
        simp [confirm_transform, order_item_save, update_price_and_vat,
          set_price, set_vat, set_sum, hpv, hvf]
  · intro it hpv hvv
    constructor <;>
      simp [confirm_transform, order_item_save, update_price_and_vat,
        set_price, set_vat, set_sum, set_vat_sum, hpv, hvv]
  · intro it hpv hvf hvv
    constructor <;>
      simp [confirm_transform, order_item_save, update_price_and_vat,
        set_price, set_vat, set_sum, hpv, hvf, hvv]

/-- Witness for amended C4 on a concrete DRAFT order. -/
theorem make_confirmed_spec_witness :
    (applyTransition 0 .make_confirmed order_confirm_cex).2 = none ∧
    (applyTransition 0 .make_confirmed order_confirm_cex).1.status
      = OrderStatus.CONFIRMED ∧
    (applyTransition 0 .make_confirmed order_confirm_cex).1.items
      = (order_confirm_cex.items.filter fun it => it.amount ≠ 0).map
          (confirm_transform 0 order_confirm_cex.status) ∧
    (∀ it : OrderItem, it.is_price_changed = false →
      it.offer_price = it.price →
      (confirm_transform 0 order_confirm_cex.status it).sum = it.sum ∧
      (confirm_transform 0 order_confirm_cex.status it).vat_sum
        = it.vat_sum ∧
      (confirm_transform 0 order_confirm_cex.status it).add_update_fields
        = it.add_update_fields) ∧
    (∀ it : OrderItem, it.offer_price ≠ it.price →
      (confirm_transform 0 order_confirm_cex.status it).sum
        = quantize 2 (it.offer_price * it.amount) ∧
      "sum" ∈ (confirm_transform 0 order_confirm_cex.status
        it).add_update_fields) ∧
    (∀ it : OrderItem, it.offer_price ≠ it.price → it.offer_vat ≠ it.vat →
      (confirm_transform 0 order_confirm_cex.status it).vat_sum
        = quantize 4 (quantize 2 (it.offer_price * it.amount)
            * it.offer_vat / 100) ∧
      "vat_sum" ∈ (confirm_transform 0 order_confirm_cex.status
        it).add_update_fields) ∧
    (∀ it : OrderItem, it.offer_price ≠ it.price →
      it.is_vat_changed = false → it.offer_vat = it.vat →
      (confirm_transform 0 order_confirm_cex.status it).vat_sum
        = it.vat_sum ∧
      (confirm_transform 0 order_confirm_cex.status it).add_update_fields
        = it.add_update_fields ++ ["sum"]) :=
  make_confirmed_spec 0 order_confirm_cex (Or.inl rfl)

end Horeca

namespace Horeca

/-- A value written into a sheet cell.  Numeric display cells carry their
exact value; `money q` stands for the localized currency string produced by
formatting a float with two decimals, with `q` the 2-decimal value shown;
header/date cells that only carry presentation text are tagged. -/
inductive CellValue
  | str (s : String)
  | natv (n : ℕ)
  | num (q : ℚ)
  | money (q : ℚ)
  | date
  | order_header (oid : ℕ)
  | link (oid : ℕ)
  | client
  deriving DecidableEq, Repr

/-- The spreadsheet writer, modelled from its input/output contract: it
records the written cells, the allocated print areas and the merged
ranges. -/
structure XlsxWriter where
  cells : List (ℕ × ℕ × CellValue) := []
  printAreas : List (ℕ × ℕ) := []
  merges : List (ℕ × ℕ × ℕ) := []
  deriving DecidableEq, Repr

/-- `XlsxWriter.write_cell` (styling arguments dropped). -/
def XlsxWriter.write_cell (xw : XlsxWriter) (row col : ℕ) (v : CellValue) :
    XlsxWriter :=
  { xw with cells := xw.cells ++ [(row, col, v)] }

/-- `XlsxWriter.next_print_area`: allocates one more print area. -/
def XlsxWriter.next_print_area (xw : XlsxWriter) (from_row size : ℕ) :
    XlsxWriter :=
  { xw with printAreas := xw.printAreas ++ [(from_row, size)] }

/-- `XlsxWriter.merge_cells` on one row. -/
def XlsxWriter.merge_cells (xw : XlsxWriter) (row c1 c2 : ℕ) : XlsxWriter :=
  { xw with merges := xw.merges ++ [(row, c1, c2)] }

/-- `XlsxWriter.page_num`: the number of print areas allocated so far. -/
def XlsxWriter.page_num (xw : XlsxWriter) : ℕ := xw.printAreas.length

@[simp] lemma write_cell_cells (xw : XlsxWriter) (r c : ℕ) (v : CellValue) :
    (xw.write_cell r c v).cells = xw.cells ++ [(r, c, v)] := rfl

@[simp] lemma write_cell_printAreas (xw : XlsxWriter) (r c : ℕ)
    (v : CellValue) : (xw.write_cell r c v).printAreas = xw.printAreas := rfl

@[simp] lemma next_print_area_cells (xw : XlsxWriter) (a b : ℕ) :
    (xw.next_print_area a b).cells = xw.cells := rfl

@[simp] lemma next_print_area_printAreas (xw : XlsxWriter) (a b : ℕ) :
    (xw.next_print_area a b).printAreas = xw.printAreas ++ [(a, b)] := rfl

@[simp] lemma merge_cells_cells (xw : XlsxWriter) (r a b : ℕ) :
    (xw.merge_cells r a b).cells = xw.cells := rfl

@[simp] lemma merge_cells_printAreas (xw : XlsxWriter) (r a b : ℕ) :
    (xw.merge_cells r a b).printAreas = xw.printAreas := rfl

/-- FreshLogicExporter.PAGE_SIZE. -/
def PAGE_SIZE : ℕ := 44

/-- FreshLogicExporter.ENDING_ROW_PADDING. -/
def ENDING_ROW_PADDING : ℕ := 6

/-- FreshLogicExporter.TABLE_ROW. -/
def TABLE_ROW : ℕ := 14

/-- FreshLogicExporter.ORDER_SUPPLIER_TEXT. -/
def ORDER_SUPPLIER_TEXT : String := "Поставщик: ООО \"Фудекс\" ИНН 9703021089"

/-- FreshLogicExporter.ORDER_TOTAL_WO_VAT_TITLE. -/
def ORDER_TOTAL_WO_VAT_TITLE : String := "Итого:"

/-- FreshLogicExporter.ORDER_TOTAL_VAT_TITLE. -/
def ORDER_TOTAL_VAT_TITLE : String := "В том числе НДС:"

/-- FreshLogicExporter.ORDER_TOTAL_TITLE. -/
def ORDER_TOTAL_TITLE : String := "Всего к оплате:"

/-- FreshLogicExporter.ORDER_END_TEXT. -/
def ORDER_END_TEXT : String :=
  "Данное предложение актуально на момент выгрузки. Резервирование товара происходит в момент заказа и действует до оплаты счета."

/-- One order item as the exporter reads it, joined with its offer and
product: the quantity, the offer's transport-package price, the product's
VAT rate, and the product's display fields. -/
structure ExpItem where
  amount : ℚ
  price_for_transport_package : ℚ
  product_vat : ℚ
  product_code : String
  product_title : String
  deriving DecidableEq, Repr

/-- The state threaded through the item loop of `export_draft_order`. -/
structure ExportState where
  xw : XlsxWriter
  row : ℕ
  total_price : ℚ
  total_vat : ℚ
  deriving DecidableEq, Repr

/-- One pass of the item loop of `export_draft_order` (index `i` is
1-based): writes the seven data cells of the row, accumulates the line
total and its VAT (the per-line VAT is
`quantize 2 (total / (100 + vat)) * vat`; the division is modelled exactly,
not at the Decimal context's 28 significant digits), then advances the row
and, when the absolute row counter reaches a multiple of PAGE_SIZE, starts
a new print area at the next row and skips two rows. -/
def export_item (s : ExportState) (i : ℕ) (it : ExpItem) : ExportState :=
  let total := it.price_for_transport_package * it.amount
  let total_vat := quantize 2 (total / (100 + it.product_vat)) * it.product_vat
  let xw := s.xw.write_cell s.row 1 (.natv i)
  let xw := xw.write_cell s.row 2 (.str it.product_code)
  let xw := xw.write_cell s.row 3 (.str it.product_title)
  let xw := xw.write_cell s.row 4 (.num it.amount)
  let xw := xw.write_cell s.row 5 (.num it.price_for_transport_package)
  let xw := xw.write_cell s.row 6 (.num total)
  let xw := xw.write_cell s.row 7 .date
  let row := s.row + 1
  if row % PAGE_SIZE = 0 then
    { xw := xw.next_print_area (row + 1) PAGE_SIZE, row := row + 2,
      total_price := s.total_price + total,
      total_vat := s.total_vat + total_vat }
  else
    { xw := xw, row := row,
      total_price := s.total_price + total,
      total_vat := s.total_vat + total_vat }

/-- The item loop of `export_draft_order` over already-enumerated items. -/
def export_items (s : ExportState) (l : List (ℕ × ExpItem)) : ExportState :=
  l.foldl (fun st p => export_item st p.1 p.2) s

/-- `enumerate(order_items, start=1)`. -/
def enum1 (items : List ExpItem) : List (ℕ × ExpItem) :=
  items.enum.map fun p => (p.1 + 1, p.2)

/-- The header block of `export_draft_order` plus the initial print area. -/
def export_header (oid : ℕ) : XlsxWriter :=
  let xw : XlsxWriter := {}
  let xw := xw.write_cell 7 1 (.order_header oid)
  let xw := xw.write_cell 9 1 (.str ORDER_SUPPLIER_TEXT)
  let xw := xw.write_cell 9 4 (.link oid)
  let xw := xw.write_cell 10 1 .client
  xw.next_print_area 1 PAGE_SIZE

/-- The loop state at `TABLE_ROW` right after the header. -/
def init_export_state (oid : ℕ) : ExportState :=
  { xw := export_header oid, row := TABLE_ROW, total_price := 0,
    total_vat := 0 }

/-- The state after the item loop of `export_draft_order`. -/
def export_loop_state (oid : ℕ) (items : List ExpItem) : ExportState :=
  export_items (init_export_state oid) (enum1 items)

/-- The 2-decimal value shown by
`ORDER_TOTAL_WO_VAT_TEXT.format(order_sum)` (and by the grand-total row):
the accumulated item total, quantized to 3 decimals, converted to float,
formatted with two decimals. -/
def order_sum_written (oid : ℕ) (items : List ExpItem) : ℚ :=
  quantize 2 (toDouble (quantize 3 (export_loop_state oid items).total_price))

/-- The 2-decimal value shown by `ORDER_TOTAL_VAT_TEXT.format(order_vat)`. -/
def order_vat_written (oid : ℕ) (items : List ExpItem) : ℚ :=
  quantize 2 (toDouble (quantize 3 (export_loop_state oid items).total_vat))

/-- `FreshLogicExporter.export_draft_order`: header block, item loop, three
summary rows, closing disclaimer, and the final print-area top-up. -/
def export_draft_order (oid : ℕ) (items : List ExpItem) : XlsxWriter :=
  let s := export_loop_state oid items
  let after_items := s.row
  let xw := s.xw
  let xw := xw.merge_cells (after_items + 1) 4 5
  let xw := xw.merge_cells (after_items + 1) 6 7
  let xw := xw.write_cell (after_items + 1) 4 (.str ORDER_TOTAL_WO_VAT_TITLE)
  let xw := xw.write_cell (after_items + 1) 6 (.money (order_sum_written oid items))
  let xw := xw.merge_cells (after_items + 2) 4 5
  let xw := xw.merge_cells (after_items + 2) 6 7
  let xw := xw.write_cell (after_items + 2) 4 (.str ORDER_TOTAL_VAT_TITLE)
  let xw := xw.write_cell (after_items + 2) 6 (.money (order_vat_written oid items))
  let xw := xw.merge_cells (after_items + 3) 4 5
  let xw := xw.merge_cells (after_items + 3) 6 7
  let xw := xw.write_cell (after_items + 3) 4 (.str ORDER_TOTAL_TITLE)
  let xw := xw.write_cell (after_items + 3) 6 (.money (order_sum_written oid items))
  let last_row := after_items + ENDING_ROW_PADDING
  let xw := xw.write_cell last_row 2 (.str ORDER_END_TEXT)
  let current_page := (last_row + PAGE_SIZE - 1) / PAGE_SIZE
  if xw.page_num < current_page then
    xw.next_print_area (after_items + 2) PAGE_SIZE
  else xw

end Horeca

namespace Horeca

lemma export_item_total_price (s : ExportState) (i : ℕ) (it : ExpItem) :
    (export_item s i it).total_price
      = s.total_price + it.price_for_transport_package * it.amount := by
  simp only [export_item]
  split <;> rfl

lemma export_items_total_price (l : List (ℕ × ExpItem)) (s : ExportState) :
    (export_items s l).total_price
      = s.total_price
        + (l.map fun p => p.2.price_for_transport_package * p.2.amount).sum := by
  induction l generalizing s with
  | nil => simp [export_items]
  | cons x xs ih =>
      simp only [export_items, List.foldl_cons, List.map_cons, List.sum_cons]
      rw [show (List.foldl (fun st p => export_item st p.1 p.2)
          (export_item s x.1 x.2) xs) = export_items (export_item s x.1 x.2) xs
        from rfl]
      rw [ih, export_item_total_price]
      ring

lemma enum1_map_val (items : List ExpItem) (f : ExpItem → ℚ) :
    ((enum1 items).map fun p => f p.2) = items.map f := by
  unfold enum1
  rw [List.map_map]
  conv_rhs => rw [← List.enum_map_snd items, List.map_map]
  rfl

lemma enum1_map_price (items : List ExpItem) :
    ((enum1 items).map fun p => p.2.price_for_transport_package * p.2.amount)
      = items.map fun it => it.price_for_transport_package * it.amount :=
  enum1_map_val items fun it => it.price_for_transport_package * it.amount

/-- The total the exporter accumulates across lines: the sum over all items
of the offer's transport-package price times the item's amount. -/
def order_total_price (items : List ExpItem) : ℚ :=
  (items.map fun it => it.price_for_transport_package * it.amount).sum

lemma export_loop_total_price (oid : ℕ) (items : List ExpItem) :
    (export_loop_state oid items).total_price = order_total_price items := by
  rw [export_loop_state, export_items_total_price, enum1_map_price]
  simp [init_export_state, order_total_price]

lemma export_item_geom (s : ExportState) (i : ℕ) (it : ExpItem) :
    ((export_item s i it).row, (export_item s i it).xw.printAreas.length)
      = if (s.row + 1) % PAGE_SIZE = 0 then
          (s.row + 1 + 2, s.xw.printAreas.length + 1)
        else (s.row + 1, s.xw.printAreas.length) := by
  simp only [export_item]
  split <;> simp

/-- The row / print-area-count geometry of the item loop: each data row
advances the row counter by one, and whenever the counter reaches a
multiple of PAGE_SIZE a fresh print area is allocated and two rows are
skipped. -/
def loopGeom : ℕ → ℕ × ℕ → ℕ × ℕ
  | 0, st => st
  | n + 1, st =>
      if (st.1 + 1) % PAGE_SIZE = 0 then loopGeom n (st.1 + 1 + 2, st.2 + 1)
      else loopGeom n (st.1 + 1, st.2)

lemma export_items_geom (l : List (ℕ × ExpItem)) (s : ExportState) :
    ((export_items s l).row, (export_items s l).xw.printAreas.length)
      = loopGeom l.length (s.row, s.xw.printAreas.length) := by
  induction l generalizing s with
  | nil => simp [export_items, loopGeom]
  | cons x xs ih =>
      simp only [export_items, List.foldl_cons, List.length_cons, loopGeom]
      rw [show (List.foldl (fun st p => export_item st p.1 p.2)
          (export_item s x.1 x.2) xs) = export_items (export_item s x.1 x.2) xs
        from rfl]
      rw [ih, export_item_geom, apply_ite (loopGeom xs.length)]

end Horeca

namespace Horeca

/-- Claim C10: the grand-total summary row (label `Всего к оплате:`) is
formatted from the very same accumulated `order_sum` as the
total-excluding-VAT row (label `Итого:`): both carry the identical money
value and the accumulated VAT amount is never added into the grand
total. -/
theorem export_grand_total_equals_subtotal (oid : ℕ) (items : List ExpItem) :
    (((export_loop_state oid items).row + 1, 6,
        CellValue.money (order_sum_written oid items))
      ∈ (export_draft_order oid items).cells) ∧
    (((export_loop_state oid items).row + 3, 6,
        CellValue.money (order_sum_written oid items))
      ∈ (export_draft_order oid items).cells) := by
  simp only [export_draft_order]
  constructor <;>
    · split <;> simp

/-- An item of quantity 1 at unit transport-package price 1 with VAT 0. -/
def item_unit_example : ExpItem :=
  { amount := 1, price_for_transport_package := 1, product_vat := 0,
    product_code := "c", product_title := "t" }

lemma export_loop_areas_of_length (oid : ℕ) (items : List ExpItem) :
    (export_loop_state oid items).xw.printAreas.length
      = (loopGeom items.length (TABLE_ROW, 1)).2 := by
  have hg := export_items_geom (enum1 items) (init_export_state oid)
  have hlen : (enum1 items).length = items.length := by
    simp [enum1, List.enum_length]
  rw [hlen] at hg
  have h1 : (init_export_state oid).row = TABLE_ROW := rfl
  have h2 : (init_export_state oid).xw.printAreas.length = 1 := rfl
  rw [h1, h2] at hg
  exact congrArg Prod.snd hg

/-- Counterexample to C8 as stated: a new print area is not started after
every 44 data rows.  The table body begins at sheet row 14 and the break
fires when the absolute row counter reaches a multiple of 44, so exporting
only 30 items (fewer than 44 data rows) already allocates a second print
area during the loop. -/
theorem export_page_size_counterexample :
    ¬ (∀ (oid : ℕ) (items : List ExpItem),
        (export_loop_state oid items).xw.printAreas.length
          = (export_header oid).printAreas.length
            + items.length / PAGE_SIZE) := by
  intro hcl
  have h := hcl 1 (List.replicate 30 item_unit_example)
  rw [export_loop_areas_of_length] at h
  have hL : (List.replicate 30 item_unit_example).length = 30 := by simp
  rw [hL] at h
  have hgeom : (loopGeom 30 (TABLE_ROW, 1)).2 = 2 := by decide
  have hhdr : (export_header 1).printAreas.length = 1 := rfl
  rw [hgeom, hhdr] at h
  simp [PAGE_SIZE] at h

/-- Claim C8 (amended): during the item loop a new print area is started
(with a two-row gap) exactly when the absolute sheet-row counter reaches a
multiple of PAGE_SIZE (44) — the table body starts at row 14, so the first
break falls after the 30th data row and later breaks every 42 data rows —
and, in particular, exporting an order with 50 items allocates at least two
print areas. -/
theorem export_print_area_spec :
    (∀ (l : List (ℕ × ExpItem)) (s : ExportState),
      ((export_items s l).row, (export_items s l).xw.printAreas.length)
        = loopGeom l.length (s.row, s.xw.printAreas.length)) ∧
    (∀ (oid : ℕ) (items : List ExpItem), items.length = 50 →
      2 ≤ (export_draft_order oid items).printAreas.length) := by
  refine ⟨export_items_geom, ?_⟩
  intro oid items h50
  have hloop : (export_loop_state oid items).xw.printAreas.length = 2 := by
    rw [export_loop_areas_of_length, h50]
    decide
  have hmono : (export_loop_state oid items).xw.printAreas.length
      ≤ (export_draft_order oid items).printAreas.length := by
    simp only [export_draft_order]
    split <;> simp
  omega

/-- Witness for amended C8: 50 concrete items allocate at least two print
areas. -/
theorem export_print_area_spec_witness :
    2 ≤ (export_draft_order 1
        (List.replicate 50 item_unit_example)).printAreas.length :=
  export_print_area_spec.2 1 (List.replicate 50 item_unit_example) (by simp)

end Horeca

namespace Horeca

lemma heRound_sub_abs (x : ℚ) : |(heRound x : ℚ) - x| ≤ 1/2 := by
  have h0 : (⌊x⌋ : ℚ) ≤ x := Int.floor_le x
  have h1 : x < ⌊x⌋ + 1 := Int.lt_floor_add_one x
  simp only [heRound]
  split_ifs with ha hb hc <;>
    · rw [abs_le]
      constructor <;> push_cast <;> push_cast at ha <;> linarith

lemma heRound_nonneg (x : ℚ) (hx : 0 ≤ x) : 0 ≤ heRound x := by
  have h0 : 0 ≤ ⌊x⌋ := Int.floor_nonneg.mpr hx
  simp only [heRound]
  split_ifs <;> omega

lemma heRound_eq_of_abs_lt (n : ℤ) (x : ℚ) (h : |x - (n : ℚ)| < 1/2) :
    heRound x = n := by
  rw [abs_sub_lt_iff] at h
  obtain ⟨ha, hb⟩ := h
  rcases le_or_lt (n : ℚ) x with hx | hx
  · have hfl : ⌊x⌋ = n := by
      rw [Int.floor_eq_iff]
      exact ⟨hx, by push_cast; linarith⟩
    simp only [heRound, hfl]
    rw [if_pos (by linarith)]
  · have hfl : ⌊x⌋ = n - 1 := by
      rw [Int.floor_eq_iff]
      constructor <;> push_cast <;> linarith
    simp only [heRound, hfl]
    rw [if_neg (by push_cast; linarith), if_pos (by push_cast; linarith)]
    omega

lemma heRound_eq_left (n : ℤ) (x : ℚ) (h1 : (n : ℚ) ≤ x)
    (h2 : x < (n : ℚ) + 1/2) : heRound x = n :=
  heRound_eq_of_abs_lt n x (by rw [abs_sub_lt_iff]; constructor <;> linarith)

lemma heRound_eq_right (n : ℤ) (x : ℚ) (h1 : (n : ℚ) + 1/2 < x)
    (h2 : x ≤ (n : ℚ) + 1) : heRound x = n + 1 :=
  heRound_eq_of_abs_lt (n + 1) x
    (by rw [abs_sub_lt_iff]; push_cast; constructor <;> linarith)

lemma int_log_two_eq (q : ℚ) (e : ℤ) (h0 : 0 < q) (h1 : (2:ℚ)^e ≤ q)
    (h2 : q < (2:ℚ)^(e+1)) : Int.log 2 q = e := by
  have hA : (2:ℚ)^(Int.log 2 q) ≤ q :=
    Int.zpow_log_le_self (by norm_num) h0
  have hB : q < (2:ℚ)^(Int.log 2 q + 1) :=
    Int.lt_zpow_succ_log_self (by norm_num) q
  have hab : e < Int.log 2 q + 1 :=
    (zpow_lt_zpow_iff_right₀ (by norm_num : (1:ℚ) < 2)).mp
      (lt_of_le_of_lt h1 hB)
  have hba : Int.log 2 q < e + 1 :=
    (zpow_lt_zpow_iff_right₀ (by norm_num : (1:ℚ) < 2)).mp
      (lt_of_le_of_lt hA h2)
  omega

lemma toDouble_eq_of_bounds (q : ℚ) (e : ℤ) (h0 : 0 < q)
    (h1 : (2:ℚ)^e ≤ q) (h2 : q < (2:ℚ)^(e+1)) :
    toDouble q
      = (heRound (q / (2:ℚ)^(e - 52)) : ℚ) * (2:ℚ)^(e - 52) := by
  rw [toDouble, if_neg (ne_of_gt h0), if_pos h0]
  simp only [toDoublePos]
  rw [int_log_two_eq q e h0 h1 h2]

lemma toDouble_err (q : ℚ) (hq : 0 ≤ q) : |toDouble q - q| ≤ q / 2^53 := by
  rcases eq_or_lt_of_le hq with h | h
  · rw [← h]
    simp [toDouble]
  · rw [toDouble, if_neg (ne_of_gt h), if_pos h]
    simp only [toDoublePos]
    set e := Int.log 2 q with he
    set u : ℚ := (2:ℚ)^(e - 52) with hu
    have hu0 : 0 < u := zpow_pos (by norm_num) _
    have hrnd := heRound_sub_abs (q / u)
    have hfac : (heRound (q / u) : ℚ) * u - q
        = ((heRound (q / u) : ℚ) - q / u) * u := by
      field_simp
    rw [hfac, abs_mul, abs_of_pos hu0]
    have hle : |(heRound (q / u) : ℚ) - q / u| * u ≤ (1/2) * u :=
      mul_le_mul_of_nonneg_right hrnd (le_of_lt hu0)
    refine le_trans hle ?_
    have hA : (2:ℚ)^e ≤ q := Int.zpow_log_le_self (by norm_num) h
    have hsplit : (1:ℚ)/2 * u = (2:ℚ)^e / 2^53 := by
      rw [hu, zpow_sub₀ (by norm_num : (2:ℚ) ≠ 0)]
      have h52 : (2:ℚ)^(52:ℤ) = (2:ℚ)^(52:ℕ) := by
        norm_num
      rw [h52]
      have : (2:ℚ)^(53:ℕ) = 2 * (2:ℚ)^(52:ℕ) := by
        norm_num [pow_succ]
      rw [this]
      field_simp
    rw [hsplit]
    gcongr

end Horeca

namespace Horeca

/-- One item of amount 0.490 at unit transport-package price 0.01: the
accumulated total 0.0049 is quantized to 0.005 (3 decimals), whose nearest
binary64 value lies just above 0.005, so the 2-decimal formatting prints
0.01 while 0.0049 rounded to 2 decimals is 0.00. -/
def item_double_rounding : ExpItem :=
  { amount := 49/100, price_for_transport_package := 1/100, product_vat := 0,
    product_code := "c", product_title := "t" }

/-- Counterexample to C7 as stated: the printed total excluding VAT is not
always the item total rounded to 2 decimals — the total is first quantized
to 3 decimals and pushed through a binary64 float, and this double rounding
can differ from direct 2-decimal rounding. -/
theorem export_total_counterexample :
    ¬ (∀ (oid : ℕ) (items : List ExpItem),
        order_sum_written oid items
          = quantize 2 (order_total_price items)) := by
  intro hcl
  have h := hcl 1 [item_double_rounding]
  have hT : order_total_price [item_double_rounding] = 49/10000 := by
    norm_num [order_total_price, item_double_rounding]
  rw [hT] at h
  have hL : order_sum_written 1 [item_double_rounding] = 1/100 := by
    rw [order_sum_written, export_loop_total_price, hT]
    have h3 : quantize 3 (49/10000 : ℚ) = 1/200 := by
      rw [quantize]
      rw [show (49/10000 : ℚ) * 10^3 = 49/10 by norm_num]
      rw [heRound_eq_right 4 (49/10) (by norm_num) (by norm_num)]
      norm_num
    rw [h3]
    have hD : toDouble (1/200 : ℚ) = 5764607523034235 / 2^60 := by
      rw [toDouble_eq_of_bounds (1/200) (-8) (by norm_num) (by norm_num)
        (by norm_num)]
      rw [show ((-8:ℤ) - 52) = (-60:ℤ) from rfl]
      rw [show (1/200 : ℚ) / (2:ℚ)^(-60:ℤ)
        = 1152921504606846976/200 by norm_num]
      rw [heRound_eq_right 5764607523034234 _ (by norm_num) (by norm_num)]
      norm_num
    rw [hD]
    rw [quantize]
    rw [show (5764607523034235 / 2^60 : ℚ) * 10^2
      = 576460752303423500/1152921504606846976 by norm_num]
    rw [heRound_eq_right 0 _ (by norm_num) (by norm_num)]
    norm_num
  have hR : quantize 2 (49/10000 : ℚ) = 0 := by
    rw [quantize]
    rw [show (49/10000:ℚ) * 10^2 = 49/100 by norm_num]
    rw [heRound_eq_left 0 _ (by norm_num) (by norm_num)]
    norm_num
  rw [hL, hR] at h
  norm_num at h

end Horeca

namespace Horeca

/-- Claim C7 (amended): the summary row `total excluding VAT` is formatted
from the accumulated item total (sum over all items of the unit
transport-package price times the amount) quantized to 3 decimals and
converted to a binary64 float before the 2-decimal formatting; whenever
that 3-decimal intermediate is not a tie at 2 decimals (its thousandths
digit is not 5) and the total is in the ordinary monetary range, the
printed value equals the item total rounded (half-even) to 2 decimals. -/
theorem export_total_wo_vat_spec (oid : ℕ) (items : List ExpItem)
    (hT0 : 0 ≤ order_total_price items)
    (hT1 : order_total_price items < 2^40)
    (h5 : heRound (order_total_price items * 10^3) % 10 ≠ 5) :
    order_sum_written oid items = quantize 2 (order_total_price items) ∧
    (((export_loop_state oid items).row + 1, 6,
        CellValue.money (order_sum_written oid items))
      ∈ (export_draft_order oid items).cells) := by
  constructor
  swap
  · simp only [export_draft_order]
    split <;> simp
  · rw [order_sum_written, export_loop_total_price]
    set T := order_total_price items with hTdef
    set k : ℤ := heRound (T * 10^3) with hkdef
    have hk0 : 0 ≤ k :=
      heRound_nonneg _ (mul_nonneg hT0 (by norm_num))
    have habs : |(k:ℚ) - T * 10^3| ≤ 1/2 := heRound_sub_abs _
    have hq3 : quantize 3 T = (k:ℚ) / 10^3 := rfl
    rw [hq3]
    set d : ℚ := (k:ℚ) / 10^3 with hddef
    have hd0 : 0 ≤ d := by
      rw [hddef]
      have : (0:ℚ) ≤ (k:ℚ) := by exact_mod_cast hk0
      positivity
    have hTd : |T - d| ≤ 1/2000 := by
      have h1 : T - d = -((k:ℚ) - T * 10^3) / 10^3 := by
        rw [hddef]; ring
      rw [h1, abs_div, abs_neg, abs_of_pos (show (0:ℚ) < 10^3 by norm_num)]
      calc |(k:ℚ) - T * 10^3| / 10^3 ≤ (1/2)/10^3 := by gcongr
        _ = 1/2000 := by norm_num
    rcases eq_or_lt_of_le hk0 with hk00 | hk1
    · have hkz : (k:ℚ) = 0 := by exact_mod_cast hk00.symm
      have hdz : d = 0 := by rw [hddef, hkz]; norm_num
      rw [hdz]
      have htd0 : toDouble 0 = 0 := by simp [toDouble]
      rw [htd0]
      have hTsmall : T * 10^2 < 1/2 := by
        have h0 := (abs_le.mp habs).1
        rw [hkz] at h0
        linarith
      rw [quantize, quantize]
      rw [show (0:ℚ) * 10^2 = 0 by ring]
      rw [heRound_eq_left 0 0 (by norm_num) (by norm_num)]
      rw [heRound_eq_left 0 (T * 10^2)
        (by push_cast; exact mul_nonneg hT0 (by norm_num))
        (by push_cast; linarith)]
    · have hk1' : (1:ℚ) ≤ (k:ℚ) := by exact_mod_cast hk1
      have hd_le : d ≤ T + 1/2000 := by
        have := (abs_le.mp hTd).1
        linarith
      have hd41 : d < 2^41 := by
        have h2 : (2:ℚ)^40 + 1 ≤ 2^41 := by norm_num
        have h3 : (1:ℚ)/2000 ≤ 1 := by norm_num
        linarith
      have herr : |toDouble d - d| ≤ d / 2^53 := toDouble_err d hd0
      have hr0a : 0 ≤ k % 10 := Int.emod_nonneg k (by norm_num)
      have hr0b : k % 10 < 10 := Int.emod_lt_of_pos k (by norm_num)
      have hkmr : 10 * (k / 10) + k % 10 = k := Int.ediv_add_emod k 10
      set m : ℤ := k / 10 with hmdef
      set r0 : ℤ := k % 10 with hrdef
      set j : ℤ := if r0 ≤ 4 then m else m + 1 with hjdef
      have hkq : (k:ℚ) = 10*(m:ℚ) + (r0:ℚ) := by exact_mod_cast hkmr.symm
      have h100d : d * 10^2 = (k:ℚ) / 10 := by rw [hddef]; ring
      have hjd : |d * 10^2 - (j:ℚ)| ≤ 2/5 := by
        rw [h100d, hkq]
        rcases le_or_lt r0 4 with hc | hc
        · rw [hjdef, if_pos hc]
          have he : (10 * (m:ℚ) + (r0:ℚ)) / 10 - (m:ℚ) = (r0:ℚ)/10 := by
            ring
          rw [he, abs_div, abs_of_nonneg (show (0:ℚ) ≤ (r0:ℚ) by
              exact_mod_cast hr0a),
            abs_of_pos (show (0:ℚ) < 10 by norm_num)]
          have hc' : (r0:ℚ) ≤ 4 := by exact_mod_cast hc
          linarith
        · rw [hjdef, if_neg (not_le.mpr hc)]
          push_cast
          have he : (10 * (m:ℚ) + (r0:ℚ)) / 10 - ((m:ℚ) + 1)
              = ((r0:ℚ) - 10)/10 := by ring
          rw [he, abs_div, abs_of_pos (show (0:ℚ) < 10 by norm_num)]
          have h6 : 6 ≤ r0 := by omega
          have h6' : (6:ℚ) ≤ (r0:ℚ) := by exact_mod_cast h6
          have h10 : (r0:ℚ) < 10 := by exact_mod_cast hr0b
          rw [abs_of_nonpos (by linarith)]
          linarith
      have habs2 : |T * 10^2 - d * 10^2| ≤ 1/20 := by
        have he : T * 10^2 - d * 10^2 = (T - d) * 10^2 := by ring
        rw [he, abs_mul, abs_of_pos (show (0:ℚ) < 10^2 by norm_num)]
        nlinarith [hTd]
      have hq2T : heRound (T * 10^2) = j := by
        apply heRound_eq_of_abs_lt
        calc |T * 10^2 - (j:ℚ)|
            ≤ |T * 10^2 - d * 10^2| + |d * 10^2 - (j:ℚ)| := abs_sub_le _ _ _
          _ ≤ 1/20 + 2/5 := add_le_add habs2 hjd
          _ < 1/2 := by norm_num
      have herr2 : |toDouble d * 10^2 - d * 10^2| ≤ 1/40 := by
        have he : toDouble d * 10^2 - d * 10^2 = (toDouble d - d) * 10^2 := by
          ring
        rw [he, abs_mul, abs_of_pos (show (0:ℚ) < 10^2 by norm_num)]
        have h1 : |toDouble d - d| * 10^2 ≤ (d / 2^53) * 10^2 := by gcongr
        have h2 : (d / 2^53) * 10^2 ≤ ((2:ℚ)^41 / 2^53) * 10^2 := by
          gcongr
        have h3 : ((2:ℚ)^41 / 2^53) * 10^2 ≤ 1/40 := by norm_num
        linarith
      have hq2D : heRound (toDouble d * 10^2) = j := by
        apply heRound_eq_of_abs_lt
        calc |toDouble d * 10^2 - (j:ℚ)|
            ≤ |toDouble d * 10^2 - d * 10^2| + |d * 10^2 - (j:ℚ)| :=
              abs_sub_le _ _ _
          _ ≤ 1/40 + 2/5 := add_le_add herr2 hjd
          _ < 1/2 := by norm_num
      rw [quantize, quantize, hq2T, hq2D]

end Horeca

namespace Horeca

/-- One plain item: amount 2 at unit transport-package price 3. -/
def items_six : List ExpItem :=
  [{ amount := 2, price_for_transport_package := 3, product_vat := 0,
     product_code := "c", product_title := "t" }]

lemma items_six_total : order_total_price items_six = 6 := by
  norm_num [order_total_price, items_six]

lemma items_six_he : heRound (order_total_price items_six * 10^3) % 10 ≠ 5 := by
  rw [items_six_total]
  rw [show (6:ℚ) * 10^3 = 6000 by norm_num]
  rw [heRound_eq_left 6000 6000 (by norm_num) (by norm_num)]
  decide

/-- Witness for amended C7 on a concrete one-item order with total 6. -/
theorem export_total_wo_vat_spec_witness :
    (0 ≤ order_total_price items_six ∧
     order_total_price items_six < 2^40 ∧
     heRound (order_total_price items_six * 10^3) % 10 ≠ 5) ∧
    (order_sum_written 1 items_six
        = quantize 2 (order_total_price items_six) ∧
      (((export_loop_state 1 items_six).row + 1, 6,
          CellValue.money (order_sum_written 1 items_six))
        ∈ (export_draft_order 1 items_six).cells)) :=
  ⟨⟨by rw [items_six_total]; norm_num,
    by rw [items_six_total]; norm_num,
    items_six_he⟩,
   export_total_wo_vat_spec 1 items_six
     (by rw [items_six_total]; norm_num)
     (by rw [items_six_total]; norm_num)
     items_six_he⟩

end Horeca
